import Mathlib

/-!
Verification development for the q-trading execution orchestration engine.

This file gives a shallow embedding, in Lean 4, of the decision pipeline of
`QuantTradingAgent` (src/quant_trading_agent.py) and of the broker session layer
(src/brokers/ib_broker.py), and proves properties of the embedded code.

Modelling conventions:
- Python floats are embedded as rationals (ℚ); all arithmetic is exact.
- Python dicts used as keyed tables are embedded as association lists in
  insertion order (Python 3.7+ dicts preserve insertion order).
- Blocking calls that poll an asynchronous flag are embedded as fueled loops,
  one fuel unit per 0.1-second sleep of the source loop.
- Broker responses, strategy analysis results and exceptions raised by broker
  calls are inputs: an environment record of response functions stands for the
  (deterministic, stubbed) broker and data feed a cycle runs against.
- Python division by zero raises; in ℚ it yields 0.  Where the source can
  divide by zero this is noted next to the definition, and theorems that would
  be sensitive to it carry a nonzero hypothesis.
-/

namespace QTrading

/-- Trading signal, from src/strategies (Signal enum). -/
inductive Signal where
  | BUY
  | SELL
  | HOLD
deriving DecidableEq, Repr

abbrev Symbol := String

/-- One entry of the orchestrator position table `self.positions[symbol]`
(src/quant_trading_agent.py, written by `_open_position` / `_close_position`).
The `entry_time` field of the source is a wall-clock timestamp that no decision
reads; it is not modelled. -/
structure Position where
  has_position : Bool
  entry_price : ℚ
  quantity : ℚ
  strategy : String
deriving DecidableEq, Repr

/-- Orchestrator position table: a Python dict keyed by symbol, in insertion
order. -/
abbrev PosTable := List (Symbol × Position)

/-- Dictionary lookup `self.positions.get(symbol)`. -/
def lookupPos (t : PosTable) (s : Symbol) : Option Position :=
  List.lookup s t

/-- The idiom `symbol in self.positions and
self.positions[symbol].get('has_position', False)` used throughout the agent. -/
def hasPos (t : PosTable) (s : Symbol) : Bool :=
  match lookupPos t s with
  | some p => p.has_position
  | none => false

/-- Dict assignment `self.positions[symbol] = p`: overwrite in place if the key
exists, else append (Python dicts keep insertion order). -/
def setPos (t : PosTable) (s : Symbol) (p : Position) : PosTable :=
  if t.any (fun kv => kv.1 == s) then
    t.map (fun kv => if kv.1 == s then (s, p) else kv)
  else
    t ++ [(s, p)]

/-- In-place field update `self.positions[symbol]['has_position'] = b`
(all other fields of the entry are kept). -/
def setHasPos (t : PosTable) (s : Symbol) (b : Bool) : PosTable :=
  t.map (fun kv => if kv.1 == s then (kv.1, { kv.2 with has_position := b }) else kv)

/-- QuantTradingAgent.check_risk_management (src/quant_trading_agent.py
lines 361-391).  Pure function of the stored position and the current price.
When `entry_price = 0` the source raises ZeroDivisionError; here the ℚ
convention `x / 0 = 0` applies, so the stop-loss/take-profit comparisons are
made against `pnl_pct = 0`. -/
def check_risk_management (stop_loss_pct take_profit_pct : ℚ) (positions : PosTable)
    (symbol : Symbol) (current_price : ℚ) : Option Signal :=
  match lookupPos positions symbol with
  | none => none
  | some position =>
    if position.has_position = false then none
    else if (current_price - position.entry_price) / position.entry_price ≤ -stop_loss_pct then
      some Signal.SELL
    else if take_profit_pct ≤ (current_price - position.entry_price) / position.entry_price then
      some Signal.SELL
    else none

/-- Concrete position table used by witnesses: one AAPL position entered at
price 100. -/
def riskDemoTable : PosTable :=
  [("AAPL", { has_position := true, entry_price := 100, quantity := 100, strategy := "MovingAverageCrossover" })]

/-- C2: the risk check is a pure function of the stored position and the
current price.  For a symbol whose stored entry has `has_position = true` it
returns SELL exactly when `pnl_pct = (current_price - entry_price)/entry_price`
is at most `-stop_loss_pct` or at least `take_profit_pct`, and None otherwise;
for a symbol with no open position (absent entry, or entry with
`has_position = false`) it returns None. -/
theorem check_risk_management_spec (stop_loss_pct take_profit_pct current_price : ℚ)
    (t : PosTable) (s : Symbol) :
    (∀ p, lookupPos t s = some p → p.has_position = true →
      check_risk_management stop_loss_pct take_profit_pct t s current_price =
        (if (current_price - p.entry_price) / p.entry_price ≤ -stop_loss_pct ∨
            take_profit_pct ≤ (current_price - p.entry_price) / p.entry_price
         then some Signal.SELL else none)) ∧
    (hasPos t s = false →
      check_risk_management stop_loss_pct take_profit_pct t s current_price = none) := by
  constructor
  · intro p hp hpos
    unfold check_risk_management
    rw [hp]
    simp only [hpos]
    by_cases h1 : (current_price - p.entry_price) / p.entry_price ≤ -stop_loss_pct
    · simp [h1]
    · by_cases h2 : take_profit_pct ≤ (current_price - p.entry_price) / p.entry_price
      · simp [h1, h2]
      · simp [h1, h2]
  · intro hno
    unfold check_risk_management
    unfold hasPos at hno
    cases hl : lookupPos t s with
    | none => rfl
    | some p =>
      rw [hl] at hno
      simp only [hl]
      simp only at hno
      simp [hno]

/-- Witness for C2, the scenario of the spec: entry price 100,
stop_loss_pct 0.05, take_profit_pct 0.15.  Current price 94 triggers SELL
(pnl −6% ≤ −5%); current price 96 yields None (pnl −4%). -/
theorem check_risk_management_spec_witness :
    check_risk_management (5/100) (15/100) riskDemoTable "AAPL" 94 = some Signal.SELL ∧
    check_risk_management (5/100) (15/100) riskDemoTable "AAPL" 96 = none := by
  constructor
  · have h := (check_risk_management_spec (5/100) (15/100) 94 riskDemoTable "AAPL").1
      { has_position := true, entry_price := 100, quantity := 100, strategy := "MovingAverageCrossover" }
      rfl rfl
    rw [h]
    norm_num
  · have h := (check_risk_management_spec (5/100) (15/100) 96 riskDemoTable "AAPL").1
      { has_position := true, entry_price := 100, quantity := 100, strategy := "MovingAverageCrossover" }
      rfl rfl
    rw [h]
    norm_num

/-!
Broker session layer (src/brokers/ib_broker.py).

The polling wrappers of IBClient are embedded as fueled loops: the source loop
`while time.time() - start_time < timeout: ...; time.sleep(0.1)` performs one
flag check per 0.1-second sleep, so a timeout of 5 seconds is 50 poll steps and
a timeout of 10 seconds is 100 poll steps.  The asynchronous callback thread is
an oracle: `received k` (resp. `dataEnd k`) tells whether the correlation flag
for the request has been set by the time of poll step `k`, and `buf k` is the
shared market-data buffer as visible at step `k` (reads happen under the
session lock, so a poll sees a consistent snapshot).
-/

/-- Poll budget of IBClient.get_market_data: 5 s timeout, 0.1 s sleep
(src/brokers/ib_broker.py lines 252-269). -/
def marketDataPolls : ℕ := 50

/-- Poll budget of IBClient.request_historical_data: 10 s timeout, 0.1 s sleep
(src/brokers/ib_broker.py lines 583-589). -/
def historicalPolls : ℕ := 100

/-- Snapshot of the mutable per-symbol market-data buffer
`self.market_data[symbol]`, restricted to the fields the polling loop reads. -/
structure MDSnapshot where
  close : List ℚ
  current_high : Option ℚ
deriving DecidableEq, Repr

/-- Polling loop of IBClient.get_market_data: at each step, under the lock,
check `self.data_received[symbol]`; if set and close prices exist return the
buffer; if set and only a current high exists, append it as the current price
(`_update_market_data`) and return; otherwise sleep and retry until the fuel
(timeout) runs out, in which case the call returns None. -/
def getMarketDataLoop (received : ℕ → Bool) (buf : ℕ → MDSnapshot) :
    ℕ → ℕ → Option MDSnapshot
  | _, 0 => none
  | k, fuel + 1 =>
    if received k then
      if (buf k).close ≠ [] then some (buf k)
      else
        match (buf k).current_high with
        | some h => some { buf k with close := (buf k).close ++ [h] }
        | none => getMarketDataLoop received buf (k + 1) fuel
    else getMarketDataLoop received buf (k + 1) fuel

/-- IBClient.get_market_data (src/brokers/ib_broker.py lines 209-277): issue
the snapshot request (clearing the received flag), then poll for at most the
5-second budget.  The surrounding try/except turns any exception into None as
well. -/
def get_market_data (received : ℕ → Bool) (buf : ℕ → MDSnapshot) : Option MDSnapshot :=
  getMarketDataLoop received buf 0 marketDataPolls

/-- Polling loop of IBClient.request_historical_data: check
`self.historical_data_end.get(req_id, False)` each step; on the flag return the
accumulated bars, after the fuel (timeout) return None. -/
def requestHistoricalLoop {α : Type} (dataEnd : ℕ → Bool) (bars : ℕ → List α) :
    ℕ → ℕ → Option (List α)
  | _, 0 => none
  | k, fuel + 1 =>
    if dataEnd k then some (bars k)
    else requestHistoricalLoop dataEnd bars (k + 1) fuel

/-- IBClient.request_historical_data (src/brokers/ib_broker.py lines 567-594):
initialise the end flag to false, send the request, then poll for at most the
10-second budget; on timeout (or any exception) return None. -/
def request_historical_data {α : Type} (dataEnd : ℕ → Bool) (bars : ℕ → List α) :
    Option (List α) :=
  requestHistoricalLoop dataEnd bars 0 historicalPolls

/-- Helper for C5: a market-data poll whose flag is never set runs out of fuel
and yields None, from any starting step. -/
theorem getMarketDataLoop_never_received (received : ℕ → Bool) (buf : ℕ → MDSnapshot)
    (h : ∀ k, received k = false) : ∀ fuel k, getMarketDataLoop received buf k fuel = none := by
  intro fuel
  induction fuel with
  | zero => intro k; rfl
  | succ n ih =>
    intro k
    unfold getMarketDataLoop
    rw [h k]
    simp only [Bool.false_eq_true, if_false]
    exact ih (k + 1)

/-- Helper for C5: a historical-data poll whose end flag is never set yields
None, from any starting step. -/
theorem requestHistoricalLoop_never_end {α : Type} (dataEnd : ℕ → Bool) (bars : ℕ → List α)
    (h : ∀ k, dataEnd k = false) : ∀ fuel k, requestHistoricalLoop dataEnd bars k fuel = none := by
  intro fuel
  induction fuel with
  | zero => intro k; rfl
  | succ n ih =>
    intro k
    unfold requestHistoricalLoop
    rw [h k]
    simp only [Bool.false_eq_true, if_false]
    exact ih (k + 1)

/-- C5: when the correlation callback is never delivered, the synchronous
wrappers return None after their bounded poll budget - 50 polls (5 s) for a
market-data snapshot, 100 polls (10 s) for a historical fetch - rather than
raising or blocking forever.  Both loop embeddings are total functions, so no
exception escapes, and the fuel bound is the timeout. -/
theorem session_timeout_returns_none {α : Type} (received : ℕ → Bool) (buf : ℕ → MDSnapshot)
    (dataEnd : ℕ → Bool) (bars : ℕ → List α)
    (hrecv : ∀ k, received k = false) (hend : ∀ k, dataEnd k = false) :
    get_market_data received buf = none ∧
    request_historical_data dataEnd bars = none ∧
    marketDataPolls = 50 ∧ historicalPolls = 100 := by
  refine ⟨?_, ?_, rfl, rfl⟩
  · exact getMarketDataLoop_never_received received buf hrecv marketDataPolls 0
  · exact requestHistoricalLoop_never_end dataEnd bars hend historicalPolls 0

/-- Witness for C5: a concrete stalled feed (flags constantly false, empty
buffers) makes both wrappers return None. -/
theorem session_timeout_returns_none_witness :
    get_market_data (fun _ => false) (fun _ => ⟨[], none⟩) = none ∧
    request_historical_data (α := ℚ) (fun _ => false) (fun _ => []) = none :=
  ⟨(session_timeout_returns_none (α := ℚ) (fun _ => false) (fun _ => ⟨[], none⟩)
      (fun _ => false) (fun _ => []) (fun _ => rfl) (fun _ => rfl)).1,
   (session_timeout_returns_none (α := ℚ) (fun _ => false) (fun _ => ⟨[], none⟩)
      (fun _ => false) (fun _ => []) (fun _ => rfl) (fun _ => rfl)).2.1⟩

/-- Order request as passed to IBBroker.place_order. -/
structure IBOrderReq where
  action : String
  quantity : ℤ
  order_type : String
  limit_price : Option ℚ
  stop_price : Option ℚ
deriving DecidableEq, Repr

/-- Parameter validation of IBBroker.place_order (src/brokers/ib_broker.py
lines 858-877): each order type requires its prices, unknown types are
rejected. -/
def orderParamsOk (r : IBOrderReq) : Bool :=
  if r.order_type = "MKT" then true
  else if r.order_type = "LMT" then r.limit_price.isSome
  else if r.order_type = "STP" then r.stop_price.isSome
  else if r.order_type = "STP LMT" then r.limit_price.isSome && r.stop_price.isSome
  else false

/-- IBBroker.place_order (src/brokers/ib_broker.py lines 829-894) acting on the
order-id counter `self.client.next_order_id`.  Returns the assigned order id
(or None) and the new counter.  `raises` is an oracle for an exception thrown
by `self.client.placeOrder` or the acknowledgment sleep; the counter has already
been incremented at that point, and the except clause returns None.  No fill or
status information is consulted: the id is returned after the fixed 1-second
wait regardless of fill state. -/
def ib_place_order (connected : Bool) (raises : Bool) (r : IBOrderReq)
    (next_order_id : ℤ) : Option ℤ × ℤ :=
  if connected = false then (none, next_order_id)
  else if r.quantity ≤ 0 then (none, next_order_id)
  else if orderParamsOk r = false then (none, next_order_id)
  else if raises then (none, next_order_id + 1)
  else (some next_order_id, next_order_id + 1)

/-- IBClient session state relevant to order-id assignment. -/
structure IBClientState where
  next_order_id : ℤ
  connected : Bool
deriving DecidableEq, Repr

/-- IBClient.nextValidId callback (src/brokers/ib_broker.py lines 182-187):
the session-established notification seeds the monotonic order-id counter and
marks the session connected. -/
def nextValidId (orderId : ℤ) (st : IBClientState) : IBClientState :=
  { st with next_order_id := orderId, connected := true }

/-- A sequence of place_order calls on one session: each call is an order
request together with its exception oracle; the counter threads through. -/
def ib_place_order_seq (connected : Bool) :
    List (IBOrderReq × Bool) → ℤ → List (Option ℤ) × ℤ
  | [], n => ([], n)
  | (r, ex) :: rest, n =>
    let head := ib_place_order connected ex r n
    let tail := ib_place_order_seq connected rest head.2
    (head.1 :: tail.1, tail.2)

/-- Helper for C7: the counter never decreases, and every id returned by a call
sequence is at least the starting counter value. -/
theorem ib_place_order_seq_lower_bound (calls : List (IBOrderReq × Bool)) :
    ∀ n : ℤ, n ≤ (ib_place_order_seq true calls n).2 ∧
      ∀ x ∈ (ib_place_order_seq true calls n).1.filterMap id, n ≤ x := by
  induction calls with
  | nil =>
    intro n
    exact ⟨le_refl n, by intro x hx; simp [ib_place_order_seq] at hx⟩
  | cons c rest ih =>
    intro n
    obtain ⟨r, ex⟩ := c
    unfold ib_place_order_seq ib_place_order
    by_cases hq : r.quantity ≤ 0
    · simp only [hq, if_true, if_false, Bool.true_eq_false]
      simpa using ih n
    · simp only [hq, if_false, Bool.true_eq_false]
      by_cases hp : orderParamsOk r = false
      · simp only [hp, if_true]
        simpa using ih n
      · simp only [hp, if_false]
        cases ex with
        | true =>
          simp only [if_true]
          have h := ih (n + 1)
          refine ⟨le_trans (by linarith) h.1, ?_⟩
          intro x hx
          simp only [List.filterMap_cons, id] at hx
          exact le_trans (by linarith) (h.2 x hx)
        | false =>
          simp only [if_false, Bool.false_eq_true]
          have h := ih (n + 1)
          refine ⟨le_trans (by linarith) h.1, ?_⟩
          intro x hx
          simp only [List.filterMap_cons, id] at hx
          rcases List.mem_cons.mp hx with hx | hx
          · omega
          · exact le_trans (by linarith) (h.2 x hx)

/-- C7: place_order takes its order id from the monotonic counter seeded by the
nextValidId session callback and, on a connected session with a positive
quantity and well-formed parameters, returns that id (incrementing the counter)
without consulting fill status; consequently the ids returned across any
sequence of place_order calls on a connected session are strictly increasing,
hence unique. -/
theorem place_order_ids_monotonic (st : IBClientState) (seed : ℤ)
    (r : IBOrderReq) (calls : List (IBOrderReq × Bool))
    (hq : 0 < r.quantity) (hp : orderParamsOk r = true) :
    ib_place_order true false r (nextValidId seed st).next_order_id =
      (some seed, seed + 1) ∧
    List.Pairwise (· < ·)
      ((ib_place_order_seq true calls (nextValidId seed st).next_order_id).1.filterMap id) ∧
    ((ib_place_order_seq true calls (nextValidId seed st).next_order_id).1.filterMap id).Nodup := by
  have hmono : ∀ (cs : List (IBOrderReq × Bool)) (n : ℤ),
      List.Pairwise (· < ·) ((ib_place_order_seq true cs n).1.filterMap id) := by
    intro cs
    induction cs with
    | nil => intro n; simp [ib_place_order_seq]
    | cons c rest ih =>
      intro n
      obtain ⟨r', ex⟩ := c
      unfold ib_place_order_seq ib_place_order
      by_cases hq' : r'.quantity ≤ 0
      · simp only [hq', if_true, if_false, Bool.true_eq_false]
        simpa using ih n
      · simp only [hq', if_false, Bool.true_eq_false]
        by_cases hp' : orderParamsOk r' = false
        · simp only [hp', if_true]
          simpa using ih n
        · simp only [hp', if_false]
          cases ex with
          | true =>
            simp only [if_true]
            simpa using ih (n + 1)
          | false =>
            simp only [if_false, Bool.false_eq_true]
            simp only [List.filterMap_cons, id]
            refine List.pairwise_cons.mpr ⟨?_, ih (n + 1)⟩
            intro x hx
            have hb := (ib_place_order_seq_lower_bound rest (n + 1)).2 x hx
            omega
  refine ⟨?_, hmono calls _, (hmono calls _).nodup⟩
  unfold ib_place_order nextValidId
  simp only [hp]
  have h1 : ¬ r.quantity ≤ 0 := not_le.mpr hq
  simp [h1]

/-- Witness for C7: on a session seeded with order id 7, a valid market order
for 10 shares receives id 7, and a concrete three-call sequence returns the
strictly increasing ids 7 and 8 (the middle call, rejected for non-positive
quantity, consumes no id). -/
theorem place_order_ids_monotonic_witness :
    ib_place_order true false ⟨"BUY", 10, "MKT", none, none⟩
        (nextValidId 7 ⟨1, false⟩).next_order_id = (some 7, 7 + 1) ∧
    (ib_place_order_seq true
        [(⟨"BUY", 10, "MKT", none, none⟩, false),
         (⟨"SELL", 0, "MKT", none, none⟩, false),
         (⟨"SELL", 5, "MKT", none, none⟩, false)]
        (nextValidId 7 ⟨1, false⟩).next_order_id).1.filterMap id = [7, 8] := by
  constructor
  · exact (place_order_ids_monotonic ⟨1, false⟩ 7 ⟨"BUY", 10, "MKT", none, none⟩ []
      (by norm_num) rfl).1
  · rfl

/-- Python `int(x)` on a rational: truncation toward zero. -/
def pyInt (q : ℚ) : ℤ :=
  if 0 ≤ q then ⌊q⌋ else -⌊-q⌋

/-- IBBroker.close_position (src/brokers/ib_broker.py lines 976-990).
`current_qty` is the broker-reported position quantity for the symbol
(`get_position`, 0.0 when the symbol is absent).  Returns the boolean result,
the updated order-id counter, and the request passed to place_order (None when
no place_order call was made). -/
def ib_close_position (connected : Bool) (raises : Bool) (current_qty : ℚ)
    (next_order_id : ℤ) : Bool × ℤ × Option IBOrderReq :=
  if current_qty = 0 then (true, next_order_id, none)
  else
    let action := if 0 < current_qty then "SELL" else "BUY"
    let quantity := |pyInt current_qty|
    let req : IBOrderReq := ⟨action, quantity, "MKT", none, none⟩
    let res := ib_place_order connected raises req next_order_id
    (res.1.isSome, res.2, some req)

/-- C10: close_position on a zero broker-reported quantity returns True without
invoking place_order; on a non-zero quantity it passes place_order a market
order on the opposite side for the absolute (integer-truncated) quantity and
returns True exactly when place_order returned an order id. -/
theorem close_position_spec (connected raises : Bool) (current_qty : ℚ) (n : ℤ) :
    (current_qty = 0 →
      ib_close_position connected raises current_qty n = (true, n, none)) ∧
    (current_qty ≠ 0 →
      (ib_close_position connected raises current_qty n).2.2 =
        some ⟨if 0 < current_qty then "SELL" else "BUY", |pyInt current_qty|, "MKT", none, none⟩ ∧
      ((ib_close_position connected raises current_qty n).1 = true ↔
        (ib_place_order connected raises
          ⟨if 0 < current_qty then "SELL" else "BUY", |pyInt current_qty|, "MKT", none, none⟩
          n).1.isSome = true)) := by
  constructor
  · intro h
    unfold ib_close_position
    simp [h]
  · intro h
    unfold ib_close_position
    rw [if_neg h]
    exact ⟨rfl, Iff.rfl⟩

/-- Witness for C10: with a connected session and counter 3, a zero position
closes trivially with no order; a long position of 100 shares sends
SELL 100 MKT and succeeds. -/
theorem close_position_spec_witness :
    ib_close_position true false 0 3 = (true, 3, none) ∧
    (ib_close_position true false 100 3).2.2 = some ⟨"SELL", 100, "MKT", none, none⟩ := by
  constructor
  · exact (close_position_spec true false 0 3).1 rfl
  · have h := ((close_position_spec true false 100 3).2 (by norm_num)).1
    rw [h]
    norm_num [pyInt]

/-!
Execution orchestrator (src/quant_trading_agent.py).

A cycle runs against a deterministic environment: the broker responses, the
per-symbol strategy analysis results and the exception behaviour of broker
calls are all given up front by a `CycleEnv`.  The orchestrator state the
pipeline mutates is the position table; trade records are written to an
append-only journal file, modelled as an output list, and the broker calls the
pipeline makes are collected in an action trace.
-/

/-- One entry of the append-only trade journal (`_log_trade`,
src/quant_trading_agent.py lines 537-563).  The wall-clock timestamp and the
free-text reason are not modelled. -/
structure TradeRecord where
  symbol : Symbol
  action : String
  price : ℚ
  strategy : String
  dry_run : Bool
deriving DecidableEq, Repr

/-- Outcome of a broker place_order call as seen by the orchestrator: an order
id, a None return, or an exception. -/
inductive PlaceOutcome where
  | ok (id : ℤ)
  | noId
  | raised
deriving DecidableEq, Repr

/-- Result of analyze_symbol for one symbol: the strategy signal and the
details fields the pipeline reads (score, price, strategy name).  None stands
for both a data-fetch failure and an exception during analysis, which the
per-symbol try/except of the cycle turns into a skip. -/
structure AnalysisResult where
  signal : Signal
  score : ℚ
  price : ℚ
  strategy : String
deriving DecidableEq, Repr

/-- One broker-side position record as returned by get_all_positions.  The
source reads it as a dict with `.get('position', 0)`, `.get('quantity', 0)`
and optionally `'avg_cost'`; the two quantity-like fields are kept separate
because IBBroker populates `position` while the refresh loop reads
`quantity`. -/
structure BrokerPos where
  position : ℚ
  quantity : ℚ
  avg_cost : Option ℚ
deriving DecidableEq, Repr

/-- Deterministic environment a cycle runs against: broker responses, analysis
results, and exception oracles.  All functions are total: a call that would
raise in the source is represented by its dedicated outcome (`PlaceOutcome`,
`bp_fetch_ok`, validation failure). -/
structure CycleEnv where
  connected : Bool
  broker_positions : List (Symbol × BrokerPos)
  net_liquidation : ℚ
  cash_balance : ℚ
  buying_power : ℚ
  bp_fetch_ok : Bool
  market_close : Symbol → Option (List ℚ)
  validate : Symbol → String → ℚ → Bool
  place : Symbol → String → ℤ → PlaceOutcome
  calculate_shares : Symbol → ℚ → ℤ
  close_ok : Symbol → Bool
  analysis : Symbol → Option AnalysisResult

/-- Observable actions of one cycle: execute_signal invocations (with their
signal) and the state-changing broker calls they make. -/
inductive Act where
  | sellExec (s : Symbol)
  | buyExec (s : Symbol)
  | callValidate (s : Symbol) (side : String) (qty : ℚ)
  | callPlaceOrder (s : Symbol) (side : String) (qty : ℤ)
  | callClosePosition (s : Symbol)
deriving DecidableEq, Repr

/-- Result of one orchestrator step: the new position table, the journal
records appended, and the actions performed. -/
structure StepResult where
  positions : PosTable
  trades : List TradeRecord
  acts : List Act
deriving DecidableEq, Repr

/-- Share count computed by _open_position in live mode
(src/quant_trading_agent.py lines 447-455): with a dollar budget,
`max(1, int(position_value / current_price))`; otherwise the broker default
sizing. -/
def openQty (env : CycleEnv) (s : Symbol) (price : ℚ) (position_value : Option ℚ) : ℤ :=
  match position_value with
  | some v => max 1 (pyInt (v / price))
  | none => env.calculate_shares s price

/-- QuantTradingAgent._open_position (src/quant_trading_agent.py
lines 424-487).  Dry-run records the position directly.  Live mode requires a
connected broker, computes the share count, validates, and places a limit
order at `price + 0.01`; any failure (disconnect, budget division by a zero
price - a ZeroDivisionError caught by the surrounding except - validation
rejection, a None order id, or an exception from place_order) returns with the
table untouched and nothing journaled.  On success the table entry is written
with the hard-coded quantity 100 (the source's `'quantity': 100  # TODO`) and
exactly one BUY record is journaled. -/
def open_position (dry_run : Bool) (env : CycleEnv) (t : PosTable)
    (s : Symbol) (price : ℚ) (strategy : String) (position_value : Option ℚ) : StepResult :=
  let newPos : Position :=
    { has_position := true, entry_price := price, quantity := 100, strategy := strategy }
  let newTrade : TradeRecord := ⟨s, "BUY", price, strategy, dry_run⟩
  if dry_run then ⟨setPos t s newPos, [newTrade], []⟩
  else if env.connected then
    if position_value.isSome = true ∧ price = 0 then ⟨t, [], []⟩
    else
      let quantity := openQty env s price position_value
      let vacts := [Act.callValidate s "BUY" (quantity : ℚ)]
      if env.validate s "BUY" (quantity : ℚ) then
        match env.place s "BUY" quantity with
        | PlaceOutcome.ok _ =>
          ⟨setPos t s newPos, [newTrade], vacts ++ [Act.callPlaceOrder s "BUY" quantity]⟩
        | PlaceOutcome.noId =>
          ⟨t, [], vacts ++ [Act.callPlaceOrder s "BUY" quantity]⟩
        | PlaceOutcome.raised =>
          ⟨t, [], vacts ++ [Act.callPlaceOrder s "BUY" quantity]⟩
      else ⟨t, [], vacts⟩
  else ⟨t, [], []⟩

/-- QuantTradingAgent._close_position (src/quant_trading_agent.py
lines 489-535).  No-op without an open table entry.  Dry-run clears the flag
and journals.  Live mode validates the sell against the stored quantity and
asks the broker to close; only on success is the flag cleared and a SELL
record journaled (a validation rejection, a False return or an exception
leaves everything untouched).  The pnl log line of the source (which would
raise on a zero entry price) has no effect on state and is not modelled. -/
def close_position (dry_run : Bool) (env : CycleEnv) (t : PosTable)
    (s : Symbol) (exit_price : ℚ) (strategy : String) : StepResult :=
  match lookupPos t s with
  | none => ⟨t, [], []⟩
  | some position =>
    if position.has_position = false then ⟨t, [], []⟩
    else
      let newTrade : TradeRecord := ⟨s, "SELL", exit_price, strategy, dry_run⟩
      if dry_run then ⟨setHasPos t s false, [newTrade], []⟩
      else if env.connected then
        let vacts := [Act.callValidate s "SELL" position.quantity]
        if env.validate s "SELL" position.quantity then
          if env.close_ok s then
            ⟨setHasPos t s false, [newTrade], vacts ++ [Act.callClosePosition s]⟩
          else ⟨t, [], vacts ++ [Act.callClosePosition s]⟩
        else ⟨t, [], vacts⟩
      else ⟨t, [], []⟩

/-- QuantTradingAgent.execute_signal (src/quant_trading_agent.py
lines 393-422): dispatch BUY to _open_position when there is no open position,
SELL to _close_position when there is one, otherwise do nothing.  The leading
trace event records the invocation itself (the source logs every signal it is
asked to execute). -/
def execute_signal (dry_run : Bool) (env : CycleEnv) (t : PosTable)
    (s : Symbol) (sig : Signal) (price : ℚ) (strategy : String)
    (position_value : Option ℚ) : StepResult :=
  let ev : List Act :=
    match sig with
    | Signal.BUY => [Act.buyExec s]
    | Signal.SELL => [Act.sellExec s]
    | Signal.HOLD => []
  let r :=
    if sig = Signal.BUY ∧ hasPos t s = false then
      open_position dry_run env t s price strategy position_value
    else if sig = Signal.SELL ∧ hasPos t s = true then
      close_position dry_run env t s price strategy
    else ⟨t, [], []⟩
  ⟨r.positions, r.trades, ev ++ r.acts⟩

/-- Helper: lookup after a dict write finds the written value (first branch:
the key was present and every binding of it is overwritten). -/
theorem lookup_map_overwrite (s : Symbol) (p : Position) :
    ∀ t : PosTable, t.any (fun kv => kv.1 == s) = true →
      List.lookup s (t.map (fun kv => if kv.1 == s then (s, p) else kv)) = some p := by
  intro t
  induction t with
  | nil => intro h; simp at h
  | cons kv rest ih =>
    obtain ⟨k, v⟩ := kv
    intro h
    by_cases hk : k = s
    · subst hk
      simp only [List.map_cons, if_pos (beq_self_eq_true k)]
      rw [List.lookup]
      simp
    · have hks : (k == s) = false := beq_eq_false_iff_ne.mpr hk
      have hsk : (s == k) = false := beq_eq_false_iff_ne.mpr (Ne.symm hk)
      simp only [List.any_cons, hks, Bool.false_or] at h
      simp only [List.map_cons, hks, Bool.false_eq_true, if_false]
      rw [List.lookup]
      simp only [hsk]
      exact ih h

/-- Helper: lookup after a dict write finds the written value (second branch:
the key was absent and the binding is appended). -/
theorem lookup_append_new (s : Symbol) (p : Position) :
    ∀ t : PosTable, t.any (fun kv => kv.1 == s) = false →
      List.lookup s (t ++ [(s, p)]) = some p := by
  intro t
  induction t with
  | nil => intro _; simp [List.lookup]
  | cons kv rest ih =>
    obtain ⟨k, v⟩ := kv
    intro h
    simp only [List.any_cons, Bool.or_eq_false_iff] at h
    have hk : ¬ (k = s) := by simpa using h.1
    have hsk : (s == k) = false := beq_eq_false_iff_ne.mpr (Ne.symm hk)
    simp only [List.cons_append]
    rw [List.lookup]
    simp only [hsk]
    exact ih h.2

/-- Helper: dict assignment followed by lookup of the same key yields the
assigned value. -/
theorem lookupPos_setPos (t : PosTable) (s : Symbol) (p : Position) :
    lookupPos (setPos t s p) s = some p := by
  unfold setPos lookupPos
  by_cases h : t.any (fun kv => kv.1 == s) = true
  · rw [if_pos h]
    exact lookup_map_overwrite s p t h
  · rw [if_neg h]
    exact lookup_append_new s p t (Bool.not_eq_true _ ▸ eq_false_of_ne_true h)

/-- Predicate picking out validation calls in a trace. -/
def isValidateCall (a : Act) : Bool :=
  match a with
  | Act.callValidate _ _ _ => true
  | _ => false

/-- Predicate picking out order-placing calls in a trace. -/
def isOrderCall (a : Act) : Bool :=
  match a with
  | Act.callPlaceOrder _ _ _ => true
  | Act.callClosePosition _ => true
  | _ => false

/-- C6: opening a position in live mode is atomic with respect to failure.
With `q` the computed share count: a disconnected broker, a validation
rejection, a missing order id and an exception from placement all leave the
position table untouched and journal nothing (the validation rejection after
exactly one validation call and no placement call, so the rejected order is
not retried); the position entry and exactly one trade record are written only
when place_order returned an id; and no single _open_position call validates
more than once. -/
theorem open_position_live_atomic (env : CycleEnv) (t : PosTable)
    (s : Symbol) (price : ℚ) (strategy : String) (pv : Option ℚ)
    (hdiv : ¬(pv.isSome = true ∧ price = 0)) :
    (env.connected = false → open_position false env t s price strategy pv = ⟨t, [], []⟩) ∧
    (env.connected = true →
      env.validate s "BUY" ((openQty env s price pv : ℤ) : ℚ) = false →
      open_position false env t s price strategy pv =
        ⟨t, [], [Act.callValidate s "BUY" ((openQty env s price pv : ℤ) : ℚ)]⟩) ∧
    (env.connected = true →
      env.validate s "BUY" ((openQty env s price pv : ℤ) : ℚ) = true →
      (env.place s "BUY" (openQty env s price pv) = PlaceOutcome.noId ∨
        env.place s "BUY" (openQty env s price pv) = PlaceOutcome.raised) →
      (open_position false env t s price strategy pv).positions = t ∧
      (open_position false env t s price strategy pv).trades = []) ∧
    (env.connected = true →
      env.validate s "BUY" ((openQty env s price pv : ℤ) : ℚ) = true →
      (∀ i, env.place s "BUY" (openQty env s price pv) = PlaceOutcome.ok i →
        (open_position false env t s price strategy pv).positions =
          setPos t s ⟨true, price, 100, strategy⟩ ∧
        (open_position false env t s price strategy pv).trades =
          [⟨s, "BUY", price, strategy, false⟩])) ∧
    ((open_position false env t s price strategy pv).acts.countP isValidateCall ≤ 1) := by
  unfold open_position
  simp only [Bool.false_eq_true, if_false]
  refine ⟨?_, ?_, ?_, ?_, ?_⟩
  · intro hc
    simp [hc]
  · intro hc hv
    simp only [hc, if_true, if_neg hdiv, hv, Bool.false_eq_true, if_false]
  · intro hc hv hplace
    simp only [hc, if_true, if_neg hdiv, hv, if_true]
    rcases hplace with h | h <;> rw [h] <;> exact ⟨rfl, rfl⟩
  · intro hc hv i hplace
    simp only [hc, if_true, if_neg hdiv, hv, if_true]
    rw [hplace]
    exact ⟨rfl, rfl⟩
  · by_cases hc : env.connected = true
    · simp only [hc, if_true, if_neg hdiv]
      by_cases hv : env.validate s "BUY" ((openQty env s price pv : ℤ) : ℚ) = true
      · simp only [hv, if_true]
        cases env.place s "BUY" (openQty env s price pv) <;>
          simp [List.countP_append, List.countP_cons, isValidateCall]
      · simp only [Bool.not_eq_true] at hv
        simp only [hv, Bool.false_eq_true, if_false]
        simp [List.countP_cons, isValidateCall]
    · simp only [Bool.not_eq_true] at hc
      simp [hc]

/-- Witness for C6: against a broker that rejects every validation, a live
open of MSFT leaves the table and the journal untouched after one validation
call; and a disconnected broker leaves everything untouched with no calls. -/
theorem open_position_live_atomic_witness :
    (open_position false
      { connected := true, broker_positions := [], net_liquidation := 100000,
        cash_balance := 100000, buying_power := 100000, bp_fetch_ok := true,
        market_close := fun _ => none, validate := fun _ _ _ => false,
        place := fun _ _ _ => PlaceOutcome.ok 1, calculate_shares := fun _ _ => 10,
        close_ok := fun _ => true, analysis := fun _ => none }
      riskDemoTable "MSFT" 100 "Momentum" none) =
      ⟨riskDemoTable, [], [Act.callValidate "MSFT" "BUY" ((10 : ℤ) : ℚ)]⟩ ∧
    (open_position false
      { connected := false, broker_positions := [], net_liquidation := 0,
        cash_balance := 0, buying_power := 0, bp_fetch_ok := false,
        market_close := fun _ => none, validate := fun _ _ _ => true,
        place := fun _ _ _ => PlaceOutcome.noId, calculate_shares := fun _ _ => 10,
        close_ok := fun _ => true, analysis := fun _ => none }
      riskDemoTable "MSFT" 100 "Momentum" none) = ⟨riskDemoTable, [], []⟩ := by
  constructor
  · exact (open_position_live_atomic
      { connected := true, broker_positions := [], net_liquidation := 100000,
        cash_balance := 100000, buying_power := 100000, bp_fetch_ok := true,
        market_close := fun _ => none, validate := fun _ _ _ => false,
        place := fun _ _ _ => PlaceOutcome.ok 1, calculate_shares := fun _ _ => 10,
        close_ok := fun _ => true, analysis := fun _ => none }
      riskDemoTable "MSFT" 100 "Momentum" none (by simp)).2.1 rfl rfl
  · exact (open_position_live_atomic
      { connected := false, broker_positions := [], net_liquidation := 0,
        cash_balance := 0, buying_power := 0, bp_fetch_ok := false,
        market_close := fun _ => none, validate := fun _ _ _ => true,
        place := fun _ _ _ => PlaceOutcome.noId, calculate_shares := fun _ _ => 10,
        close_ok := fun _ => true, analysis := fun _ => none }
      riskDemoTable "MSFT" 100 "Momentum" none (by simp)).1 rfl

/-- C9: whenever _open_position completes successfully (it journaled a trade),
the table entry it recorded carries the hard-coded quantity 100, whatever
dollar budget was passed in and whatever share count was computed for the
broker; the entry price and strategy come from the signal details. -/
theorem open_position_records_quantity_100 (dry_run : Bool) (env : CycleEnv)
    (t : PosTable) (s : Symbol) (price : ℚ) (strategy : String) (pv : Option ℚ)
    (hsucc : (open_position dry_run env t s price strategy pv).trades ≠ []) :
    lookupPos (open_position dry_run env t s price strategy pv).positions s =
      some ⟨true, price, 100, strategy⟩ := by
  unfold open_position at hsucc ⊢
  by_cases hd : dry_run = true
  · simp only [hd, if_true]
    exact lookupPos_setPos t s _
  · simp only [Bool.not_eq_true] at hd
    simp only [hd, Bool.false_eq_true, if_false] at hsucc ⊢
    by_cases hc : env.connected = true
    · simp only [hc, if_true] at hsucc ⊢
      by_cases hz : pv.isSome = true ∧ price = 0
      · simp [hz] at hsucc
      · simp only [if_neg hz] at hsucc ⊢
        by_cases hv : env.validate s "BUY" ((openQty env s price pv : ℤ) : ℚ) = true
        · simp only [hv, if_true] at hsucc ⊢
          cases hp : env.place s "BUY" (openQty env s price pv) with
          | ok i => simp only [hp]; exact lookupPos_setPos t s _
          | noId => rw [hp] at hsucc; simp at hsucc
          | raised => rw [hp] at hsucc; simp at hsucc
        · simp only [Bool.not_eq_true] at hv
          rw [hv] at hsucc
          simp at hsucc
    · simp only [Bool.not_eq_true] at hc
      rw [hc] at hsucc
      simp at hsucc

/-- Witness for C9: a dry-run open of AAPL at price 50 with a 1000-dollar
budget journals a trade, and the recorded entry has quantity 100 (not
1000/50 = 20 shares). -/
theorem open_position_records_quantity_100_witness :
    lookupPos (open_position true
      { connected := true, broker_positions := [], net_liquidation := 100000,
        cash_balance := 100000, buying_power := 100000, bp_fetch_ok := true,
        market_close := fun _ => none, validate := fun _ _ _ => true,
        place := fun _ _ _ => PlaceOutcome.ok 1, calculate_shares := fun _ _ => 10,
        close_ok := fun _ => true, analysis := fun _ => none }
      [] "AAPL" 50 "VWAP" (some 1000)).positions "AAPL" =
      some { has_position := true, entry_price := 50, quantity := 100, strategy := "VWAP" } :=
  open_position_records_quantity_100 true
    { connected := true, broker_positions := [], net_liquidation := 100000,
      cash_balance := 100000, buying_power := 100000, bp_fetch_ok := true,
      market_close := fun _ => none, validate := fun _ _ _ => true,
      place := fun _ _ _ => PlaceOutcome.ok 1, calculate_shares := fun _ _ => 10,
      close_ok := fun _ => true, analysis := fun _ => none }
    [] "AAPL" 50 "VWAP" (some 1000) (by unfold open_position; simp)

/-!
The per-cycle pipeline `run_analysis_cycle` (src/quant_trading_agent.py
lines 681-828) together with the portfolio refresh
`refresh_and_display_portfolio_status` (lines 565-679).
-/

/-- Account snapshot assembled by the refresh step (the `account_info` dict);
None stands for the empty dict, whose `.get(key, 0)` reads all yield 0. -/
structure AccountInfo where
  net_liquidation : ℚ
  cash_balance : ℚ
  buying_power : ℚ
  total_position_value : ℚ
deriving DecidableEq, Repr

/-- Total market value of broker positions computed by the refresh step
(src/quant_trading_agent.py lines 599-613): for each broker position with a
non-zero `position` field, the absolute quantity times the last close price
from get_market_data; a missing or empty close list (or any per-symbol
exception) contributes nothing. -/
def tpvOf (env : CycleEnv) : ℚ :=
  (env.broker_positions.map (fun kv =>
    if kv.2.position ≠ 0 then
      match env.market_close kv.1 with
      | some closes =>
        match closes.getLast? with
        | some c => |kv.2.position| * c
        | none => 0
      | none => 0
    else 0)).sum

/-- QuantTradingAgent.refresh_and_display_portfolio_status
(src/quant_trading_agent.py lines 565-679), state-relevant part.  With a
disconnected broker nothing is touched and account_info stays empty.  When
connected, line 582 iterates the keys of the dict returned by
get_all_positions and indexes each key string with `['symbol']`; with a
non-empty broker dict and a non-empty local table this raises TypeError,
caught at line 624, so neither the table nor account_info is produced.
Otherwise the update loop runs (finding no broker entry when the broker dict
is empty, marking each tracked symbol closed with quantity 0) and the account
block computes the snapshot. -/
def refresh (env : CycleEnv) (t : PosTable) : PosTable × Option AccountInfo :=
  if env.connected = true then
    if t ≠ [] ∧ env.broker_positions ≠ [] then (t, none)
    else
      let updated := t.map (fun kv =>
        match env.broker_positions.lookup kv.1 with
        | some bp =>
          let ep := match bp.avg_cost with | some c => c | none => kv.2.entry_price
          (kv.1, { kv.2 with has_position := true, quantity := bp.quantity, entry_price := ep })
        | none => (kv.1, { kv.2 with has_position := false, quantity := 0 }))
      (updated, some ⟨env.net_liquidation, env.cash_balance, env.buying_power, tpvOf env⟩)
  else (t, none)

/-- Symbols of table entries with an open position, in table order
(the `active_position_symbols` list of the refresh step). -/
def activeSymbols (t : PosTable) : List Symbol :=
  (t.filter (fun kv => kv.2.has_position)).map (fun kv => kv.1)

/-- One entry of the `symbol_scores` list built by step 1 of the cycle
(src/quant_trading_agent.py lines 735-741). -/
structure ScoreItem where
  symbol : Symbol
  score : ℚ
  signal : Signal
  price : ℚ
  strategy : String
  has_position : Bool
deriving DecidableEq, Repr

/-- Output of the per-symbol analysis loop. -/
structure AnalyzeOut where
  positions : PosTable
  trades : List TradeRecord
  acts : List Act
  items : List ScoreItem
deriving DecidableEq, Repr

/-- Step 1 of the cycle (src/quant_trading_agent.py lines 707-746): for each
symbol in turn, run the strategy (skipping the symbol when analysis fails),
evaluate the risk check against the current table, and on a risk signal
execute the SELL immediately and drop the symbol from the scored list;
otherwise record the symbol with its score and current position flag. -/
def analyzePhase (dry_run : Bool) (sl tp : ℚ) (env : CycleEnv) :
    List Symbol → PosTable → AnalyzeOut
  | [], t => ⟨t, [], [], []⟩
  | s :: rest, t =>
    match env.analysis s with
    | none => analyzePhase dry_run sl tp env rest t
    | some r =>
      match check_risk_management sl tp t s r.price with
      | some riskSig =>
        let e := execute_signal dry_run env t s riskSig r.price r.strategy none
        let out := analyzePhase dry_run sl tp env rest e.positions
        ⟨out.positions, e.trades ++ out.trades, e.acts ++ out.acts, out.items⟩
      | none =>
        let item : ScoreItem := ⟨s, r.score, r.signal, r.price, r.strategy, hasPos t s⟩
        let out := analyzePhase dry_run sl tp env rest t
        ⟨out.positions, out.trades, out.acts, item :: out.items⟩

/-- Descending-score order used by step 2 of the cycle. -/
def scoreGe (a b : ScoreItem) : Prop := b.score ≤ a.score

instance : DecidableRel scoreGe := fun a b => inferInstanceAs (Decidable (b.score ≤ a.score))

instance : IsTotal ScoreItem scoreGe := ⟨fun a b => le_total b.score a.score⟩

instance : IsTrans ScoreItem scoreGe := ⟨fun _ _ _ h1 h2 => le_trans h2 h1⟩

/-- Step 2 of the cycle: `symbol_scores.sort(key=score, reverse=True)`.
Python's sort is stable, so any stable sort by descending score computes the
same list; a stable insertion sort is used here. -/
def sortScores (l : List ScoreItem) : List ScoreItem :=
  List.insertionSort scoreGe l

/-- Step 3 selection (src/quant_trading_agent.py line 758): ranked symbols
holding a position whose score is below the hard-coded weak-signal threshold
of -20. -/
def weakSells (ranked : List ScoreItem) : List ScoreItem :=
  ranked.filter (fun i => i.has_position && decide (i.score < -20))

/-- Step 3 execution (lines 764-768): close each weak-signal position via
execute_signal SELL, in ranked order. -/
def sellPhase (dry_run : Bool) (env : CycleEnv) :
    List ScoreItem → PosTable → StepResult
  | [], t => ⟨t, [], []⟩
  | i :: rest, t =>
    let e := execute_signal dry_run env t i.symbol Signal.SELL i.price i.strategy none
    let out := sellPhase dry_run env rest e.positions
    ⟨out.positions, e.trades ++ out.trades, e.acts ++ out.acts⟩

/-- Step 5 candidate filter (line 799): ranked symbols with strictly positive
score and no existing position. -/
def buyCandidates (ranked : List ScoreItem) : List ScoreItem :=
  ranked.filter (fun i => decide (0 < i.score) && !i.has_position)

/-- Step 4 of the cycle (lines 772-796): after the closures, buying power is
re-read from the broker when connected (and the read succeeds); otherwise the
fallback `net_liquidation * max_total_exposure - total_position_value` is
computed from the account snapshot of the refresh step (0 when the snapshot is
empty).  Note the broker figure is the raw buying power, not capped by the
exposure ceiling. -/
def availableBuyingPower (mte : Option ℚ) (env : CycleEnv) (acct : Option AccountInfo) : ℚ :=
  if env.connected = true ∧ env.bp_fetch_ok = true then env.buying_power
  else
    (match acct with | some a => a.net_liquidation | none => 0) * mte.getD (4/5) -
      (match acct with | some a => a.total_position_value | none => 0)

/-- Step 5 sizing (lines 804-810): with candidates selected and positive
buying power, split the buying power evenly; otherwise no dollar budget is
assigned and opening falls back to broker default sizing. -/
def positionValueEach (abp : ℚ) (toOpen : List ScoreItem) : Option ℚ :=
  if toOpen ≠ [] ∧ 0 < abp then some (abp / toOpen.length) else none

/-- Step 6 of the cycle (lines 817-821): open each selected candidate via
execute_signal BUY with the common dollar budget. -/
def buyPhase (dry_run : Bool) (env : CycleEnv) (pve : Option ℚ) :
    List ScoreItem → PosTable → StepResult
  | [], t => ⟨t, [], []⟩
  | i :: rest, t =>
    let e := execute_signal dry_run env t i.symbol Signal.BUY i.price i.strategy pve
    let out := buyPhase dry_run env pve rest e.positions
    ⟨out.positions, e.trades ++ out.trades, e.acts ++ out.acts⟩

/-- Configuration surface of the cycle, with the optional keys read through
`config.get(key, default)` kept optional. -/
structure AgentConfig where
  symbols : List Symbol
  max_total_exposure : Option ℚ
  max_new_positions : Option ℕ
  stop_loss_pct : ℚ
  take_profit_pct : ℚ
  dry_run : Bool
deriving DecidableEq, Repr

/-- Result of one cycle: the final table, the journal records and actions of
the cycle, and the intermediate step outputs (ranking, candidate selection,
capital split) that the pipeline computes along the way. -/
structure CycleResult where
  positions : PosTable
  trades : List TradeRecord
  acts : List Act
  sorted_scores : List ScoreItem
  sell_candidates : List ScoreItem
  buy_candidates : List ScoreItem
  positions_to_open : List ScoreItem
  available_buying_power : ℚ
  position_value_each : Option ℚ
  account_info : Option AccountInfo
deriving DecidableEq, Repr

/-- Steps 1-6 of run_analysis_cycle after the portfolio refresh, from the
refreshed table `t1`, the account snapshot and the iteration order of the
analysis loop (the source builds that order with `list(set(...))`, whose
order Python leaves unspecified; theorems below hold for every order). -/
def runCycleFrom (cfg : AgentConfig) (env : CycleEnv) (acct : Option AccountInfo)
    (order : List Symbol) (t1 : PosTable) : CycleResult :=
  let a := analyzePhase cfg.dry_run cfg.stop_loss_pct cfg.take_profit_pct env order t1
  let ranked := sortScores a.items
  let sells := weakSells ranked
  let s3 := sellPhase cfg.dry_run env sells a.positions
  let abp := availableBuyingPower cfg.max_total_exposure env acct
  let buys := buyCandidates ranked
  let toOpen := buys.take (cfg.max_new_positions.getD 5)
  let pve := positionValueEach abp toOpen
  let s6 := buyPhase cfg.dry_run env pve toOpen s3.positions
  ⟨s6.positions, a.trades ++ s3.trades ++ s6.trades, a.acts ++ s3.acts ++ s6.acts,
    ranked, sells, buys, toOpen, abp, pve, acct⟩

/-- QuantTradingAgent.run_analysis_cycle (src/quant_trading_agent.py
lines 681-828): refresh the portfolio, merge the configured symbols with the
currently held ones (dropping duplicates; `List.dedup` stands for one
admissible iteration order of the Python set), then run steps 1-6. -/
def runAnalysisCycle (cfg : AgentConfig) (env : CycleEnv) (t0 : PosTable) : CycleResult :=
  let r := refresh env t0
  let order := (cfg.symbols ++ activeSymbols r.1).dedup
  runCycleFrom cfg env r.2 order r.1

/-- Dollar budgets of the positions opened by step 6: each selected candidate
receives the common per-position value; with no assigned budget (broker
default sizing) no dollar figure is attributed. -/
def allocatedBudgets (r : CycleResult) : List ℚ :=
  match r.position_value_each with
  | some v => r.positions_to_open.map (fun _ => v)
  | none => []

/-- Projection lemma: the buy-candidate list of a cycle is the filtered
ranking. -/
theorem runAnalysisCycle_buy_candidates (cfg : AgentConfig) (env : CycleEnv) (t0 : PosTable) :
    (runAnalysisCycle cfg env t0).buy_candidates =
      buyCandidates (runAnalysisCycle cfg env t0).sorted_scores := rfl

/-- Projection lemma: the opening selection of a cycle is the config-bounded
prefix of its buy-candidate list. -/
theorem runAnalysisCycle_positions_to_open (cfg : AgentConfig) (env : CycleEnv) (t0 : PosTable) :
    (runAnalysisCycle cfg env t0).positions_to_open =
      (runAnalysisCycle cfg env t0).buy_candidates.take (cfg.max_new_positions.getD 5) := rfl

/-- Projection lemma: the per-position dollar budget of a cycle. -/
theorem runAnalysisCycle_position_value_each (cfg : AgentConfig) (env : CycleEnv) (t0 : PosTable) :
    (runAnalysisCycle cfg env t0).position_value_each =
      positionValueEach (runAnalysisCycle cfg env t0).available_buying_power
        (runAnalysisCycle cfg env t0).positions_to_open := rfl

/-- Projection lemma: the buying power a cycle allocates from. -/
theorem runAnalysisCycle_abp (cfg : AgentConfig) (env : CycleEnv) (t0 : PosTable) :
    (runAnalysisCycle cfg env t0).available_buying_power =
      availableBuyingPower cfg.max_total_exposure env (refresh env t0).2 := rfl

/-- Helper: the refresh step either produces no account snapshot or the
snapshot built from the broker figures with the computed total position
value. -/
theorem refresh_account_cases (env : CycleEnv) (t : PosTable) :
    (refresh env t).2 = none ∨
    (refresh env t).2 =
      some ⟨env.net_liquidation, env.cash_balance, env.buying_power, tpvOf env⟩ := by
  unfold refresh
  by_cases hc : env.connected = true
  · simp only [hc, if_true]
    by_cases h2 : t ≠ [] ∧ env.broker_positions ≠ []
    · left
      rw [if_pos h2]
    · right
      rw [if_neg h2]
  · left
    rw [if_neg hc]

/-- Helper: summing a constant over a list multiplies it by the length. -/
theorem sum_map_const (l : List ScoreItem) (v : ℚ) :
    (l.map (fun _ => v)).sum = l.length * v := by
  induction l with
  | nil => simp
  | cons i rest ih =>
    simp only [List.map_cons, List.sum_cons, List.length_cons, ih]
    push_cast
    ring

/-- Helper: when step 5 assigns a per-position dollar value, the budgets of
the selected candidates sum to exactly the available buying power. -/
theorem positionValueEach_sum (abp v : ℚ) (l : List ScoreItem)
    (h : positionValueEach abp l = some v) :
    (l.map (fun _ => v)).sum = abp := by
  unfold positionValueEach at h
  by_cases hc : l ≠ [] ∧ 0 < abp
  · rw [if_pos hc] at h
    have hv : v = abp / l.length := by
      injection h with h2
      exact h2.symm
    subst hv
    rw [sum_map_const]
    have hlen : (l.length : ℚ) ≠ 0 := by
      have : l.length ≠ 0 := by
        intro h0
        exact hc.1 (List.eq_nil_of_length_eq_zero h0)
      exact_mod_cast this
    field_simp
  · rw [if_neg hc] at h
    exact absurd h (by simp)

/-- C1 (amended): the exposure bound on allocated budgets holds exactly on the
fallback path.  When the cycle cannot take buying power from the broker (it is
disconnected, or the re-read raises), the allocation step splits
`net_liquidation * max_total_exposure - total_position_value`, so the budgets
granted to newly opened positions sum to at most
`max_total_exposure * net_liquidation`.  (On the connected path the cycle
splits the raw broker buying power instead, which the exposure ceiling does
not bound - see the counterexample.) -/
theorem exposure_cap_fallback (cfg : AgentConfig) (env : CycleEnv) (t0 : PosTable)
    (hfb : ¬(env.connected = true ∧ env.bp_fetch_ok = true))
    (hnlv : 0 ≤ env.net_liquidation)
    (hmte : 0 ≤ cfg.max_total_exposure.getD (4/5))
    (htpv : 0 ≤ tpvOf env) :
    (allocatedBudgets (runAnalysisCycle cfg env t0)).sum ≤
      cfg.max_total_exposure.getD (4/5) * env.net_liquidation := by
  have habp : (runAnalysisCycle cfg env t0).available_buying_power =
      availableBuyingPower cfg.max_total_exposure env (refresh env t0).2 := rfl
  cases hpve : (runAnalysisCycle cfg env t0).position_value_each with
  | none =>
    unfold allocatedBudgets
    rw [hpve]
    simpa using mul_nonneg hmte hnlv
  | some v =>
    unfold allocatedBudgets
    rw [hpve]
    have hsum : ((runAnalysisCycle cfg env t0).positions_to_open.map (fun _ => v)).sum =
        (runAnalysisCycle cfg env t0).available_buying_power := by
      apply positionValueEach_sum
      rw [← runAnalysisCycle_position_value_each]
      exact hpve
    rw [hsum, habp]
    unfold availableBuyingPower
    rw [if_neg hfb]
    rcases refresh_account_cases env t0 with h | h <;> rw [h]
    · simpa using mul_nonneg hmte hnlv
    · simp only
      have hcomm : env.net_liquidation * cfg.max_total_exposure.getD (4/5) =
          cfg.max_total_exposure.getD (4/5) * env.net_liquidation := mul_comm _ _
      linarith

/-- Witness for the amended C1: with the broker disconnected, net liquidation
100000 and exposure ceiling defaulting to 0.8, the allocated budgets sum to at
most 80000. -/
theorem exposure_cap_fallback_witness :
    (allocatedBudgets (runAnalysisCycle
      { symbols := ["AAA", "BBB", "CCC"], max_total_exposure := none,
        max_new_positions := none, stop_loss_pct := 5/100, take_profit_pct := 15/100,
        dry_run := true }
      { connected := false, broker_positions := [], net_liquidation := 100000,
        cash_balance := 100000, buying_power := 100000, bp_fetch_ok := true,
        market_close := fun _ => none, validate := fun _ _ _ => true,
        place := fun _ _ _ => PlaceOutcome.ok 1, calculate_shares := fun _ _ => 10,
        close_ok := fun _ => true,
        analysis := fun s =>
          if s = "AAA" then some ⟨Signal.BUY, 30, 100, "Momentum"⟩
          else if s = "BBB" then some ⟨Signal.BUY, 20, 100, "Momentum"⟩
          else if s = "CCC" then some ⟨Signal.BUY, 10, 100, "Momentum"⟩
          else none }
      [])).sum ≤ (4/5 : ℚ) * 100000 := by
  have h := exposure_cap_fallback
    { symbols := ["AAA", "BBB", "CCC"], max_total_exposure := none,
      max_new_positions := none, stop_loss_pct := 5/100, take_profit_pct := 15/100,
      dry_run := true }
    { connected := false, broker_positions := [], net_liquidation := 100000,
      cash_balance := 100000, buying_power := 100000, bp_fetch_ok := true,
      market_close := fun _ => none, validate := fun _ _ _ => true,
      place := fun _ _ _ => PlaceOutcome.ok 1, calculate_shares := fun _ _ => 10,
      close_ok := fun _ => true,
      analysis := fun s =>
        if s = "AAA" then some ⟨Signal.BUY, 30, 100, "Momentum"⟩
        else if s = "BBB" then some ⟨Signal.BUY, 20, 100, "Momentum"⟩
        else if s = "CCC" then some ⟨Signal.BUY, 10, 100, "Momentum"⟩
        else none }
    [] (by simp) (by norm_num) (by norm_num) (le_of_eq rfl)
  exact h

/-- Configuration of the C1 counterexample: three configured symbols, exposure
ceiling left to its 0.8 default, dry run. -/
def cexCfg : AgentConfig :=
  { symbols := ["AAA", "BBB", "CCC"], max_total_exposure := none, max_new_positions := none,
    stop_loss_pct := 5/100, take_profit_pct := 15/100, dry_run := true }

/-- Environment of the C1 counterexample: a connected broker reporting net
liquidation 100000 and buying power 100000 (a plain cash account), no open
positions, and three positive-score BUY candidates at price 100. -/
def cexEnv : CycleEnv :=
  { connected := true, broker_positions := [], net_liquidation := 100000,
    cash_balance := 100000, buying_power := 100000, bp_fetch_ok := true,
    market_close := fun _ => none, validate := fun _ _ _ => true,
    place := fun _ _ _ => PlaceOutcome.ok 1, calculate_shares := fun _ _ => 10,
    close_ok := fun _ => true,
    analysis := fun s =>
      if s = "AAA" then some ⟨Signal.BUY, 30, 100, "Momentum"⟩
      else if s = "BBB" then some ⟨Signal.BUY, 20, 100, "Momentum"⟩
      else if s = "CCC" then some ⟨Signal.BUY, 10, 100, "Momentum"⟩
      else none }

/-- Counterexample to C1 as stated: in the scenario of the spec (capital
100000, ceiling 0.8, three positive-score candidates with no position, broker
connected) each candidate does receive buying_power/3, but the budgets sum to
the full broker buying power 100000, which exceeds
max_total_exposure * net_liquidation = 80000: the exposure-capped figure
computed at line 693 is discarded when step 4 re-reads the raw broker buying
power at line 779. -/
theorem exposure_cap_counterexample :
    (runAnalysisCycle cexCfg cexEnv []).position_value_each = some (100000/3) ∧
    allocatedBudgets (runAnalysisCycle cexCfg cexEnv []) =
      [100000/3, 100000/3, 100000/3] ∧
    (allocatedBudgets (runAnalysisCycle cexCfg cexEnv [])).sum = 100000 ∧
    cexCfg.max_total_exposure.getD (4/5) * cexEnv.net_liquidation = 80000 ∧
    ¬((allocatedBudgets (runAnalysisCycle cexCfg cexEnv [])).sum ≤
        cexCfg.max_total_exposure.getD (4/5) * cexEnv.net_liquidation) := by
  have hb : allocatedBudgets (runAnalysisCycle cexCfg cexEnv []) =
      [100000/3, 100000/3, 100000/3] := rfl
  have hsum : (allocatedBudgets (runAnalysisCycle cexCfg cexEnv [])).sum = 100000 := by
    rw [hb]
    norm_num
  have hcap : cexCfg.max_total_exposure.getD (4/5) * cexEnv.net_liquidation = 80000 := by
    show (4/5 : ℚ) * 100000 = 80000
    norm_num
  refine ⟨rfl, hb, hsum, hcap, ?_⟩
  rw [hsum, hcap]
  norm_num

/-- C4: the opening candidates of a cycle are exactly the config-bounded
prefix (N = max_new_positions, default 5) of the positive-score no-position
symbols in descending score order: every selected candidate has positive score
and no position, at most N are selected, the selection is the N-prefix of the
descending-sorted candidate list, so every selected candidate scores at least
every unselected one; and when a dollar budget is assigned it is exactly the
available buying power divided by the number of selected candidates, so the
budgets sum to the buying power read at allocation time and never exceed
it. -/
theorem buy_selection_spec (cfg : AgentConfig) (env : CycleEnv) (t0 : PosTable) :
    (∀ i ∈ (runAnalysisCycle cfg env t0).positions_to_open,
      0 < i.score ∧ i.has_position = false) ∧
    (runAnalysisCycle cfg env t0).positions_to_open.length ≤ cfg.max_new_positions.getD 5 ∧
    (runAnalysisCycle cfg env t0).positions_to_open =
      (runAnalysisCycle cfg env t0).buy_candidates.take (cfg.max_new_positions.getD 5) ∧
    List.Sorted scoreGe (runAnalysisCycle cfg env t0).buy_candidates ∧
    (∀ i ∈ (runAnalysisCycle cfg env t0).positions_to_open,
      ∀ j ∈ (runAnalysisCycle cfg env t0).buy_candidates.drop (cfg.max_new_positions.getD 5),
        j.score ≤ i.score) ∧
    (∀ v, (runAnalysisCycle cfg env t0).position_value_each = some v →
      v = (runAnalysisCycle cfg env t0).available_buying_power /
        (runAnalysisCycle cfg env t0).positions_to_open.length ∧
      (allocatedBudgets (runAnalysisCycle cfg env t0)).sum =
        (runAnalysisCycle cfg env t0).available_buying_power) ∧
    (0 < (runAnalysisCycle cfg env t0).available_buying_power →
      (allocatedBudgets (runAnalysisCycle cfg env t0)).sum ≤
        (runAnalysisCycle cfg env t0).available_buying_power) := by
  have hbc : (runAnalysisCycle cfg env t0).buy_candidates =
      buyCandidates (runAnalysisCycle cfg env t0).sorted_scores :=
    runAnalysisCycle_buy_candidates cfg env t0
  have hto : (runAnalysisCycle cfg env t0).positions_to_open =
      (runAnalysisCycle cfg env t0).buy_candidates.take (cfg.max_new_positions.getD 5) :=
    runAnalysisCycle_positions_to_open cfg env t0
  have hsorted_scores : (runAnalysisCycle cfg env t0).sorted_scores =
      sortScores (analyzePhase cfg.dry_run cfg.stop_loss_pct cfg.take_profit_pct env
        ((cfg.symbols ++ activeSymbols (refresh env t0).1).dedup) (refresh env t0).1).items := rfl
  have hsorted : List.Sorted scoreGe (runAnalysisCycle cfg env t0).buy_candidates := by
    rw [hbc, hsorted_scores]
    unfold buyCandidates sortScores
    exact (List.sorted_insertionSort scoreGe _).filter _
  have hmem : ∀ i ∈ (runAnalysisCycle cfg env t0).positions_to_open,
      0 < i.score ∧ i.has_position = false := by
    intro i hi
    rw [hto] at hi
    have hi2 : i ∈ (runAnalysisCycle cfg env t0).buy_candidates := List.take_subset _ _ hi
    rw [hbc] at hi2
    unfold buyCandidates at hi2
    have := (List.mem_filter.mp hi2).2
    simp only [Bool.and_eq_true, decide_eq_true_eq, Bool.not_eq_true'] at this
    exact this
  refine ⟨hmem, ?_, hto, hsorted, ?_, ?_, ?_⟩
  · rw [hto]
    exact le_trans (le_of_eq (List.length_take _ _)) (min_le_left _ _)
  · intro i hi j hj
    rw [hto] at hi
    have hpw : List.Pairwise scoreGe
        ((runAnalysisCycle cfg env t0).buy_candidates.take (cfg.max_new_positions.getD 5) ++
          (runAnalysisCycle cfg env t0).buy_candidates.drop (cfg.max_new_positions.getD 5)) := by
      rw [List.take_append_drop]
      exact hsorted
    exact (List.pairwise_append.mp hpw).2.2 i hi j hj
  · intro v hv
    have hv2 : positionValueEach (runAnalysisCycle cfg env t0).available_buying_power
        (runAnalysisCycle cfg env t0).positions_to_open = some v := by
      rw [← runAnalysisCycle_position_value_each]
      exact hv
    constructor
    · unfold positionValueEach at hv2
      by_cases hc : (runAnalysisCycle cfg env t0).positions_to_open ≠ [] ∧
          0 < (runAnalysisCycle cfg env t0).available_buying_power
      · rw [if_pos hc] at hv2
        injection hv2 with h2
        exact h2.symm
      · rw [if_neg hc] at hv2
        exact absurd hv2 (by simp)
    · unfold allocatedBudgets
      rw [hv]
      exact positionValueEach_sum _ _ _ hv2
  · intro hpos
    cases hpve : (runAnalysisCycle cfg env t0).position_value_each with
    | none =>
      unfold allocatedBudgets
      rw [hpve]
      simpa using le_of_lt hpos
    | some v =>
      unfold allocatedBudgets
      rw [hpve]
      refine le_of_eq (positionValueEach_sum _ _ _ ?_)
      rw [← runAnalysisCycle_position_value_each]
      exact hpve

/-- Witness for C4 at the three-candidate scenario: at most the default five
candidates are selected (here three), each selected candidate has positive
score and no position, and the assigned budgets sum to exactly the buying
power read at allocation time. -/
theorem buy_selection_spec_witness :
    (runAnalysisCycle cexCfg cexEnv []).positions_to_open.length ≤ 5 ∧
    (allocatedBudgets (runAnalysisCycle cexCfg cexEnv [])).sum =
      (runAnalysisCycle cexCfg cexEnv []).available_buying_power :=
  ⟨(buy_selection_spec cexCfg cexEnv []).2.1,
   ((buy_selection_spec cexCfg cexEnv []).2.2.2.2.2.1 (100000/3) rfl).2⟩

/-- Helper: the risk check can only ever demand a SELL. -/
theorem check_risk_management_only_sell (sl tp : ℚ) (t : PosTable) (s : Symbol)
    (price : ℚ) (sig : Signal)
    (h : check_risk_management sl tp t s price = some sig) : sig = Signal.SELL := by
  unfold check_risk_management at h
  split at h
  · simp at h
  · split at h
    · simp at h
    · split at h
      · injection h with h2
        exact h2.symm
      · split at h
        · injection h with h2
          exact h2.symm
        · simp at h

/-- Projection of a trace action to its execute_signal invocation, if any. -/
def execEvent (a : Act) : Option (Signal × Symbol) :=
  match a with
  | Act.sellExec s => some (Signal.SELL, s)
  | Act.buyExec s => some (Signal.BUY, s)
  | _ => none

/-- Sequence of execute_signal invocations (signal and symbol) in a trace, in
execution order. -/
def execEvents (acts : List Act) : List (Signal × Symbol) :=
  acts.filterMap execEvent

/-- Helper: execEvents distributes over trace concatenation. -/
theorem execEvents_append (a b : List Act) :
    execEvents (a ++ b) = execEvents a ++ execEvents b := by
  simp [execEvents]

/-- Helper: _open_position only makes broker calls, it never invokes
execute_signal. -/
theorem execEvents_open_position (d : Bool) (env : CycleEnv) (t : PosTable)
    (s : Symbol) (price : ℚ) (strat : String) (pv : Option ℚ) :
    execEvents (open_position d env t s price strat pv).acts = [] := by
  simp only [open_position]
  split
  · rfl
  · split
    · split
      · rfl
      · split
        · split <;> rfl
        · rfl
    · rfl

/-- Helper: _close_position only makes broker calls, it never invokes
execute_signal. -/
theorem execEvents_close_position (d : Bool) (env : CycleEnv) (t : PosTable)
    (s : Symbol) (price : ℚ) (strat : String) :
    execEvents (close_position d env t s price strat).acts = [] := by
  simp only [close_position]
  split
  · rfl
  · split
    · rfl
    · split
      · rfl
      · split
        · split
          · split <;> rfl
          · rfl
        · rfl

/-- Helper: an execute_signal invocation contributes exactly its own event to
the trace: the dispatched open/close makes broker calls only. -/
theorem execEvents_execute_signal (d : Bool) (env : CycleEnv) (t : PosTable)
    (s : Symbol) (sig : Signal) (price : ℚ) (strat : String) (pv : Option ℚ) :
    execEvents (execute_signal d env t s sig price strat pv).acts =
      (match sig with
        | Signal.BUY => [(Signal.BUY, s)]
        | Signal.SELL => [(Signal.SELL, s)]
        | Signal.HOLD => ([] : List (Signal × Symbol))) := by
  simp only [execute_signal]
  rw [execEvents_append]
  have hr : execEvents (if sig = Signal.BUY ∧ hasPos t s = false then
      open_position d env t s price strat pv
    else if sig = Signal.SELL ∧ hasPos t s = true then
      close_position d env t s price strat
    else ⟨t, [], []⟩).acts = [] := by
    split
    · exact execEvents_open_position d env t s price strat pv
    · split
      · exact execEvents_close_position d env t s price strat
      · rfl
  rw [hr, List.append_nil]
  cases sig <;> rfl

/-- Helper: every execute_signal invocation made by the per-symbol analysis
loop is a SELL (the risk check only ever fires SELL and fires inside this
loop). -/
theorem analyzePhase_events_sell (d : Bool) (sl tp : ℚ) (env : CycleEnv) :
    ∀ (order : List Symbol) (t : PosTable),
      ∀ e ∈ execEvents (analyzePhase d sl tp env order t).acts, e.1 = Signal.SELL := by
  intro order
  induction order with
  | nil =>
    intro t e he
    simp [analyzePhase, execEvents] at he
  | cons s rest ih =>
    intro t e he
    cases ha : env.analysis s with
    | none =>
      simp only [analyzePhase, ha] at he
      exact ih t e he
    | some r =>
      cases hrk : check_risk_management sl tp t s r.price with
      | some riskSig =>
        simp only [analyzePhase, ha, hrk] at he
        rw [execEvents_append] at he
        rcases List.mem_append.mp he with h | h
        · rw [execEvents_execute_signal] at h
          have hsig := check_risk_management_only_sell sl tp t s r.price riskSig hrk
          subst hsig
          simp only [List.mem_singleton] at h
          rw [h]
        · exact ih _ e h
      | none =>
        simp only [analyzePhase, ha, hrk] at he
        exact ih t e he

/-- Helper: the close loop of step 3 invokes execute_signal SELL once per
candidate, in order, and nothing else. -/
theorem sellPhase_events (d : Bool) (env : CycleEnv) :
    ∀ (l : List ScoreItem) (t : PosTable),
      (∀ e ∈ execEvents (sellPhase d env l t).acts, e.1 = Signal.SELL) ∧
      (∀ i ∈ l, (Signal.SELL, i.symbol) ∈ execEvents (sellPhase d env l t).acts) := by
  intro l
  induction l with
  | nil =>
    intro t
    constructor
    · intro e he
      simp [sellPhase, execEvents] at he
    · intro i hi
      simp at hi
  | cons j rest ih =>
    intro t
    have hstep : execEvents (sellPhase d env (j :: rest) t).acts =
        (Signal.SELL, j.symbol) ::
          execEvents (sellPhase d env rest
            (execute_signal d env t j.symbol Signal.SELL j.price j.strategy none).positions).acts := by
      simp only [sellPhase]
      rw [execEvents_append, execEvents_execute_signal]
      rfl
    constructor
    · intro e he
      rw [hstep] at he
      rcases List.mem_cons.mp he with h | h
      · rw [h]
      · exact (ih _).1 e h
    · intro i hi
      rw [hstep]
      rcases List.mem_cons.mp hi with h | h
      · rw [h]
        exact List.mem_cons_self _ _
      · exact List.mem_cons_of_mem _ ((ih _).2 i h)

/-- Helper: every execute_signal invocation made by the opening loop of step 6
is a BUY. -/
theorem buyPhase_events (d : Bool) (env : CycleEnv) (pve : Option ℚ) :
    ∀ (l : List ScoreItem) (t : PosTable),
      ∀ e ∈ execEvents (buyPhase d env pve l t).acts, e.1 = Signal.BUY := by
  intro l
  induction l with
  | nil =>
    intro t e he
    simp [buyPhase, execEvents] at he
  | cons j rest ih =>
    intro t e he
    have hstep : execEvents (buyPhase d env pve (j :: rest) t).acts =
        (Signal.BUY, j.symbol) ::
          execEvents (buyPhase d env pve rest
            (execute_signal d env t j.symbol Signal.BUY j.price j.strategy pve).positions).acts := by
      simp only [buyPhase]
      rw [execEvents_append, execEvents_execute_signal]
      rfl
    rw [hstep] at he
    rcases List.mem_cons.mp he with h | h
    · rw [h]
    · exact ih _ e h

/-- Helper: a trace made of two all-SELL segments followed by an all-BUY
segment splits into sells before buys, with the second segment's events in the
sell part. -/
theorem events_split_of_parts (xs ys zs : List Act) (sells : List ScoreItem)
    (hx : ∀ e ∈ execEvents xs, e.1 = Signal.SELL)
    (hy : ∀ e ∈ execEvents ys, e.1 = Signal.SELL)
    (hz : ∀ e ∈ execEvents zs, e.1 = Signal.BUY)
    (hmem : ∀ i ∈ sells, (Signal.SELL, i.symbol) ∈ execEvents ys) :
    ∃ ss bs, execEvents (xs ++ ys ++ zs) = ss ++ bs ∧
      (∀ e ∈ ss, e.1 = Signal.SELL) ∧
      (∀ e ∈ bs, e.1 = Signal.BUY) ∧
      (∀ i ∈ sells, (Signal.SELL, i.symbol) ∈ ss) := by
  refine ⟨execEvents xs ++ execEvents ys, execEvents zs, ?_, ?_, hz, ?_⟩
  · rw [execEvents_append, execEvents_append]
  · intro e he
    rcases List.mem_append.mp he with h | h
    · exact hx e h
    · exact hy e h
  · intro i hi
    exact List.mem_append_right _ (hmem i hi)

/-- C3: within one analysis cycle every SELL execution precedes every BUY
execution.  The cycle's execute_signal trace splits as a sell segment (the
risk-triggered SELLs of the per-symbol analysis step, which bypass ranking,
followed by the weak-signal closes of step 3) before an all-BUY segment
(step 6), and every weak-signal candidate's SELL lies in the sell segment. -/
theorem closes_precede_opens (cfg : AgentConfig) (env : CycleEnv) (t0 : PosTable) :
    ∃ ss bs,
      execEvents (runAnalysisCycle cfg env t0).acts = ss ++ bs ∧
      (∀ e ∈ ss, e.1 = Signal.SELL) ∧
      (∀ e ∈ bs, e.1 = Signal.BUY) ∧
      (∀ i ∈ (runAnalysisCycle cfg env t0).sell_candidates,
        (Signal.SELL, i.symbol) ∈ ss) :=
  events_split_of_parts _ _ _ _
    (analyzePhase_events_sell cfg.dry_run cfg.stop_loss_pct cfg.take_profit_pct env _ _)
    ((sellPhase_events cfg.dry_run env _ _).1)
    (buyPhase_events cfg.dry_run env _ _ _)
    ((sellPhase_events cfg.dry_run env _ _).2)

/-- Witness for C3: the decomposition at the concrete three-candidate cycle. -/
theorem closes_precede_opens_witness :
    ∃ ss bs,
      execEvents (runAnalysisCycle cexCfg cexEnv []).acts = ss ++ bs ∧
      (∀ e ∈ ss, e.1 = Signal.SELL) ∧
      (∀ e ∈ bs, e.1 = Signal.BUY) ∧
      (∀ i ∈ (runAnalysisCycle cexCfg cexEnv []).sell_candidates,
        (Signal.SELL, i.symbol) ∈ ss) :=
  closes_precede_opens cexCfg cexEnv []

/-- Configuration of the C8 counterexample: two configured symbols, at most
one new position per cycle, live (non-dry-run) mode. -/
def idemCfg : AgentConfig :=
  { symbols := ["AAA", "BBB"], max_total_exposure := none, max_new_positions := some 1,
    stop_loss_pct := 5/100, take_profit_pct := 15/100, dry_run := false }

/-- Environment of the C8 counterexample: a connected stub broker with
deterministic data - every validation passes, every placement succeeds, the
position snapshot stays empty (orders not yet reflected), and the two
analysis results never change. -/
def idemEnv : CycleEnv :=
  { connected := true, broker_positions := [], net_liquidation := 1000,
    cash_balance := 1000, buying_power := 1000, bp_fetch_ok := true,
    market_close := fun _ => none, validate := fun _ _ _ => true,
    place := fun _ _ _ => PlaceOutcome.ok 1, calculate_shares := fun _ _ => 10,
    close_ok := fun _ => true,
    analysis := fun s =>
      if s = "AAA" then some ⟨Signal.BUY, 2, 100, "Momentum"⟩
      else if s = "BBB" then some ⟨Signal.BUY, 1, 100, "Momentum"⟩
      else none }

/-- Counterexample to C8 as stated: against a deterministic stub broker with
signals, scores, prices and broker position state all unchanged between the
two runs, the second run_analysis_cycle still issues an order-placing broker
call (its place_order for AAA) and journals a further trade: the portfolio
refresh, finding AAA absent from the broker snapshot, marks it closed, and the
opening step buys it again.  The per-cycle pipeline is therefore not
idempotent. -/
theorem cycle_not_idempotent :
    (runAnalysisCycle idemCfg idemEnv []).trades.length = 1 ∧
    ((runAnalysisCycle idemCfg idemEnv
      (runAnalysisCycle idemCfg idemEnv []).positions).acts.countP isOrderCall) = 1 ∧
    (runAnalysisCycle idemCfg idemEnv
      (runAnalysisCycle idemCfg idemEnv []).positions).trades.length = 1 :=
  ⟨rfl, rfl, rfl⟩

/-- C8 (amended): the pipeline is deterministic rather than idempotent.  With
an unchanged environment, whenever a run leaves the position table unchanged
the next run is the same run: it performs exactly the same calls, so it makes
zero order-placing or position-closing broker calls precisely when the first
run made none.  (Without the fixed-point hypothesis a second run can place
further orders - see the counterexample.) -/
theorem cycle_fixed_point_deterministic (cfg : AgentConfig) (env : CycleEnv) (t0 : PosTable)
    (h : (runAnalysisCycle cfg env t0).positions = t0) :
    runAnalysisCycle cfg env (runAnalysisCycle cfg env t0).positions =
      runAnalysisCycle cfg env t0 ∧
    ((runAnalysisCycle cfg env t0).acts.countP isOrderCall = 0 →
      (runAnalysisCycle cfg env
        (runAnalysisCycle cfg env t0).positions).acts.countP isOrderCall = 0) := by
  constructor
  · rw [h]
  · intro h0
    rw [h]
    exact h0

/-- Witness for the amended C8: a cycle over an empty symbol universe leaves
the empty table unchanged, and the rerun is identical to the first run. -/
theorem cycle_fixed_point_deterministic_witness :
    (runAnalysisCycle
      { symbols := [], max_total_exposure := none, max_new_positions := none,
        stop_loss_pct := 5/100, take_profit_pct := 15/100, dry_run := true }
      idemEnv []).positions = [] ∧
    runAnalysisCycle
      { symbols := [], max_total_exposure := none, max_new_positions := none,
        stop_loss_pct := 5/100, take_profit_pct := 15/100, dry_run := true }
      idemEnv
      (runAnalysisCycle
        { symbols := [], max_total_exposure := none, max_new_positions := none,
          stop_loss_pct := 5/100, take_profit_pct := 15/100, dry_run := true }
        idemEnv []).positions =
      runAnalysisCycle
        { symbols := [], max_total_exposure := none, max_new_positions := none,
          stop_loss_pct := 5/100, take_profit_pct := 15/100, dry_run := true }
        idemEnv [] :=
  ⟨rfl,
   (cycle_fixed_point_deterministic
     { symbols := [], max_total_exposure := none, max_new_positions := none,
       stop_loss_pct := 5/100, take_profit_pct := 15/100, dry_run := true }
     idemEnv [] rfl).1⟩

end QTrading
